import Mathlib

/-!
Verification of the BOLT-8 peer channel encryptor
(`src/ln/peer_channel_encryptor.rs`): the Noise_XK handshake state
machine and the post-handshake length-framed transport cipher.

Bytes are modelled as `List Nat`.  The external cryptographic
collaborators (SHA-256, HMAC-SHA-256, ChaCha20-Poly1305, secp256k1)
are abstracted as a `Crypto` structure; the contracts the code relies
on (AEAD length discipline and round-trip, ECDH symmetry, point
parse/serialize inversion) are collected in `CryptoOk`.
-/

namespace PCE

/-- Bytes are lists of naturals (each conceptually in `[0, 255]`). -/
abbrev Bytes := List Nat

/-- Modelled from the spec: `util::byte_utils::le64_to_array`, the
little-endian 8-byte encoding of a 64-bit counter (byte-order helpers
are external collaborators, not under `src/`). -/
def le64_to_array (n : Nat) : Bytes :=
  [n % 256, n / 256 % 256, n / 256 ^ 2 % 256, n / 256 ^ 3 % 256,
   n / 256 ^ 4 % 256, n / 256 ^ 5 % 256, n / 256 ^ 6 % 256, n / 256 ^ 7 % 256]

/-- Modelled from the spec: `util::byte_utils::be16_to_array`, the
big-endian 2-byte encoding of a 16-bit length (the `as u16` cast in the
caller truncates modulo `2^16`). -/
def be16_to_array (n : Nat) : Bytes :=
  [n % 65536 / 256, n % 256]

/-- Modelled from the spec: `util::byte_utils::slice_to_be16`, reading
a big-endian 16-bit integer from two bytes. -/
def slice_to_be16 (v : Bytes) : Nat :=
  v.getD 0 0 * 256 + v.getD 1 0

/-- The 12-byte ChaCha20-Poly1305 nonce built by `encrypt_with_ad` /
`decrypt_with_ad`: four zero bytes followed by the counter in
little-endian over 8 bytes. -/
def nonce_for (n : Nat) : Bytes :=
  [0, 0, 0, 0] ++ le64_to_array n

/-- Modelled from the spec: `ln::msgs::ErrorAction` (not under `src/`).
The only action this core ever recommends is disconnecting the peer,
optionally with an outgoing message. -/
inductive ErrorAction where
  | disconnectPeer (msg : Option Bytes)
  | ignoreError
deriving DecidableEq

/-- Modelled from the spec: `ln::msgs::HandleError` (not under `src/`):
a short error identifier plus an optional action recommendation. -/
structure HandleError where
  err : String
  action : Option ErrorAction
deriving DecidableEq

/-- `"Bad MAC"` error, carrying a disconnect-without-message action. -/
def badMACErr : HandleError :=
  { err := "Bad MAC", action := some (ErrorAction.disconnectPeer none) }

/-- `"Unknown handshake version number"` error. -/
def unknownVersionErr : HandleError :=
  { err := "Unknown handshake version number",
    action := some (ErrorAction.disconnectPeer none) }

/-- `"Invalid public key"` error. -/
def invalidPubKeyErr : HandleError :=
  { err := "Invalid public key", action := some (ErrorAction.disconnectPeer none) }

/-- `"Bad node_id from peer"` error (Act 3 inner pubkey fails to parse). -/
def badRemoteStaticErr : HandleError :=
  { err := "Bad node_id from peer", action := some (ErrorAction.disconnectPeer none) }

/-- Modelled from the spec: the external cryptographic collaborators
(`bitcoin_hashes` SHA-256/HMAC, `secp256k1` keys and ECDH,
`util::chacha20poly1305rfc`).  Secret and public keys are represented
as naturals; the AEAD is split into its ciphertext body and its
16-byte Poly1305 tag, with decryption as a body transform plus a tag
check, mirroring the `ChaCha20Poly1305RFC` interface. -/
structure Crypto where
  sha256 : Bytes → Bytes
  hmac : Bytes → Bytes → Bytes
  pubOf : Nat → Nat
  serPub : Nat → Bytes
  parsePub : Bytes → Option Nat
  ecdh : Nat → Nat → Bytes
  encBody : Bytes → Bytes → Bytes → Bytes → Bytes
  encTag : Bytes → Bytes → Bytes → Bytes → Bytes
  decBody : Bytes → Bytes → Bytes → Bytes
  decCheck : Bytes → Bytes → Bytes → Bytes → Bytes → Bool

/-- Modelled from the spec: the contracts of the external collaborators
that the code relies on — the AEAD ciphertext is the same length as
the plaintext followed by a 16-byte tag and decryption inverts
encryption under the same key/nonce/AD; compressed points serialize to
33 bytes and re-parse to themselves; ECDH is symmetric. -/
structure CryptoOk (C : Crypto) : Prop where
  encBody_length : ∀ k nn ad m, (C.encBody k nn ad m).length = m.length
  encTag_length : ∀ k nn ad m, (C.encTag k nn ad m).length = 16
  dec_check_enc : ∀ k nn ad m,
    C.decCheck k nn ad (C.encBody k nn ad m) (C.encTag k nn ad m) = true
  dec_body_enc : ∀ k nn ad m, C.decBody k nn (C.encBody k nn ad m) = m
  serPub_length : ∀ p, (C.serPub p).length = 33
  parse_serPub : ∀ p, C.parsePub (C.serPub p) = some p
  ecdh_symm : ∀ a b, C.ecdh a (C.pubOf b) = C.ecdh b (C.pubOf a)

/-- `Sha256("Noise_XK_secp256k1_ChaChaPoly_SHA256")`, the constant
`NOISE_CK` from the source. -/
def NOISE_CK : Bytes :=
  [0x26, 0x40, 0xf5, 0x2e, 0xeb, 0xcd, 0x9e, 0x88, 0x29, 0x58, 0x95, 0x1c, 0x79, 0x42, 0x50, 0xee,
   0xdb, 0x28, 0x00, 0x2c, 0x05, 0xd7, 0xdc, 0x2e, 0xa0, 0xf1, 0x95, 0x40, 0x60, 0x42, 0xca, 0xf1]

/-- `Sha256(NOISE_CK || "lightning")`, the constant `NOISE_H` from the
source. -/
def NOISE_H : Bytes :=
  [0xd1, 0xfb, 0xf6, 0xde, 0xe4, 0xf6, 0x86, 0xf1, 0x32, 0xfd, 0x70, 0x2c, 0x4a, 0xbf, 0x8f, 0xba,
   0x4b, 0xb4, 0x20, 0xd8, 0x9d, 0x2a, 0x04, 0x8a, 0x3c, 0x4f, 0x4c, 0x09, 0x2e, 0x37, 0xb6, 0x76]

/-- The reasons a call can abort with a runtime precondition violation
(the `panic!` / `assert!` / unsigned-underflow paths of the source). -/
inductive AbortKind where
  | tooLarge
  | underflow
  | assertFail
deriving DecidableEq

/-- Result of an operation that may abort (precondition violation),
fail with a `HandleError`, or succeed. -/
inductive TResult (α : Type) where
  | halt (k : AbortKind)
  | err (e : HandleError)
  | ok (a : α)
deriving DecidableEq

/-- Extract the success value of a `TResult`, with a default. -/
def TResult.valD {α : Type} (r : TResult α) (d : α) : α :=
  match r with
  | TResult.ok a => a
  | _ => d

/-- `PeerChannelEncryptor::encrypt_with_ad`: ChaCha20-Poly1305 with the
nonce built from counter `n`; output is ciphertext body followed by
the 16-byte tag. -/
def encrypt_with_ad (C : Crypto) (n : Nat) (key : Bytes) (h : Bytes) (plaintext : Bytes) : Bytes :=
  C.encBody key (nonce_for n) h plaintext ++ C.encTag key (nonce_for n) h plaintext

/-- `PeerChannelEncryptor::decrypt_with_ad`: splits the input into body
and trailing 16-byte tag, verifies the tag and returns the decrypted
body, or the `"Bad MAC"` error. -/
def decrypt_with_ad (C : Crypto) (n : Nat) (key : Bytes) (h : Bytes) (cyphertext : Bytes) :
    Except HandleError Bytes :=
  if C.decCheck key (nonce_for n) h (cyphertext.take (cyphertext.length - 16))
      (cyphertext.drop (cyphertext.length - 16)) then
    Except.ok (C.decBody key (nonce_for n) (cyphertext.take (cyphertext.length - 16)))
  else
    Except.error badMACErr

/-- `PeerChannelEncryptor::hkdf_extract_expand`:
`PRK = HMAC(salt, ikm)`, `T1 = HMAC(PRK, 0x01)`,
`T2 = HMAC(PRK, T1 || 0x02)`, returning `(T1, T2)`. -/
def hkdf_extract_expand (C : Crypto) (salt : Bytes) (ikm : Bytes) : Bytes × Bytes :=
  let prk := C.hmac salt ikm
  let t1 := C.hmac prk [1]
  (t1, C.hmac prk (t1 ++ [2]))

/-- The `h`/`ck` pair shared by both directions of the handshake
(source `BidirectionalNoiseState`). -/
structure BidirectionalNoiseState where
  h : Bytes
  ck : Bytes
deriving DecidableEq

/-- `PeerChannelEncryptor::hkdf`: mixes a shared secret into the
chaining key, returning the new chaining key and the derived
temporary key. -/
def hkdf_step (C : Crypto) (ck : Bytes) (ss : Bytes) : Bytes × Bytes :=
  hkdf_extract_expand C ck ss

/-- Initiator directional state (source `OutboundData`): the local
ephemeral secret and the remote static public key. -/
structure OutboundData where
  ie : Nat
  their_node_id : Nat
deriving DecidableEq

/-- A `PeerChannelEncryptor` in an outbound in-progress state
(`PreActOne<Outbound>` and `PostActOne<Outbound>` share this data). -/
structure OutboundPeer where
  data : OutboundData
  bi : BidirectionalNoiseState
deriving DecidableEq

/-- Responder directional state after Act 2 (source
`InboundPostActTwo`): the initiator's ephemeral pubkey, the
responder's ephemeral secret and `temp_k2`. -/
structure InboundPostActTwoState where
  ie : Nat
  re : Nat
  temp_k2 : Bytes
  bi : BidirectionalNoiseState
deriving DecidableEq

/-- The `Finished` transport state: send and receive key, nonce
counter and chaining key. -/
structure Finished where
  sk : Bytes
  sn : Nat
  sck : Bytes
  rk : Bytes
  rn : Nat
  rck : Bytes
deriving DecidableEq

/-- `PeerChannelEncryptor::new_outbound`: `ck = NOISE_CK`,
`h = SHA-256(NOISE_H || their_node_id)`, storing the ephemeral secret
and the remote static key. -/
def new_outbound (C : Crypto) (their_node_id : Nat) (ephemeral_key : Nat) : OutboundPeer :=
  { data := { ie := ephemeral_key, their_node_id := their_node_id },
    bi := { h := C.sha256 (NOISE_H ++ C.serPub their_node_id), ck := NOISE_CK } }

/-- `PeerChannelEncryptor::new_inbound`: `ck = NOISE_CK`,
`h = SHA-256(NOISE_H || our_node_id)`. -/
def new_inbound (C : Crypto) (our_node_secret : Nat) : BidirectionalNoiseState :=
  { h := C.sha256 (NOISE_H ++ C.serPub (C.pubOf our_node_secret)), ck := NOISE_CK }

/-- `PeerChannelEncryptor::outbound_noise_act`: mixes our ephemeral
pubkey into `h`, derives `temp_k` from ECDH, emits
`0x00 || pubkey || tag` and mixes the tag into `h`.  Returns the
50-byte act, `temp_k`, and the updated bidirectional state. -/
def outbound_noise_act (C : Crypto) (state : BidirectionalNoiseState)
    (our_key : Nat) (their_key : Nat) : Bytes × Bytes × BidirectionalNoiseState :=
  (0 :: (C.serPub (C.pubOf our_key)
      ++ encrypt_with_ad C 0 (hkdf_step C state.ck (C.ecdh our_key their_key)).2
          (C.sha256 (state.h ++ C.serPub (C.pubOf our_key))) []),
   (hkdf_step C state.ck (C.ecdh our_key their_key)).2,
   { h := C.sha256 (C.sha256 (state.h ++ C.serPub (C.pubOf our_key))
        ++ encrypt_with_ad C 0 (hkdf_step C state.ck (C.ecdh our_key their_key)).2
            (C.sha256 (state.h ++ C.serPub (C.pubOf our_key))) []),
     ck := (hkdf_step C state.ck (C.ecdh our_key their_key)).1 })

/-- `PeerChannelEncryptor::inbound_noise_act` (on a 50-byte act):
version byte must be 0, bytes `[1..34]` must parse as a point, the
trailing 16-byte tag must verify; mixes the parsed pubkey and the tag
into `h`.  Returns the parsed pubkey, `temp_k`, and the updated
bidirectional state. -/
def inbound_noise_act (C : Crypto) (state : BidirectionalNoiseState)
    (act : Bytes) (our_key : Nat) :
    Except HandleError (Nat × Bytes × BidirectionalNoiseState) :=
  if act.getD 0 0 ≠ 0 then
    Except.error unknownVersionErr
  else
    match C.parsePub ((act.drop 1).take 33) with
    | none => Except.error invalidPubKeyErr
    | some their_pub =>
      match decrypt_with_ad C 0 (hkdf_step C state.ck (C.ecdh our_key their_pub)).2
          (C.sha256 (state.h ++ C.serPub their_pub)) (act.drop 34) with
      | Except.error e => Except.error e
      | Except.ok _ =>
        Except.ok (their_pub, (hkdf_step C state.ck (C.ecdh our_key their_pub)).2,
          { h := C.sha256 (C.sha256 (state.h ++ C.serPub their_pub) ++ act.drop 34),
            ck := (hkdf_step C state.ck (C.ecdh our_key their_pub)).1 })

/-- `PeerChannelEncryptor::get_act_one`: runs the outbound act with the
stored ephemeral secret against the remote static key. -/
def get_act_one (C : Crypto) (p : OutboundPeer) : OutboundPeer × Bytes :=
  ({ data := p.data, bi := (outbound_noise_act C p.bi p.data.ie p.data.their_node_id).2.2 },
   (outbound_noise_act C p.bi p.data.ie p.data.their_node_id).1)

/-- `PeerChannelEncryptor::process_act_one_with_keys`: asserts the act
is 50 bytes, runs the inbound act with our static secret, then builds
Act 2 with our ephemeral secret, storing `(ie, re, temp_k2)`. -/
def process_act_one_with_keys (C : Crypto) (st : BidirectionalNoiseState)
    (act_one : Bytes) (our_node_secret : Nat) (our_ephemeral : Nat) :
    TResult (InboundPostActTwoState × Bytes) :=
  if act_one.length ≠ 50 then TResult.halt AbortKind.assertFail
  else
    match inbound_noise_act C st act_one our_node_secret with
    | Except.error e => TResult.err e
    | Except.ok (their_pub, _, st1) =>
      TResult.ok
        ({ ie := their_pub, re := our_ephemeral,
           temp_k2 := (outbound_noise_act C st1 our_ephemeral their_pub).2.1,
           bi := (outbound_noise_act C st1 our_ephemeral their_pub).2.2 },
         (outbound_noise_act C st1 our_ephemeral their_pub).1)

/-- `PeerChannelEncryptor::process_act_two`: asserts the act is 50
bytes, runs the inbound act with the stored ephemeral secret, builds
the 66-byte Act 3 (encrypted static pubkey at `n = 1` under `temp_k2`,
final tag at `n = 0` under `temp_k3`), and derives the `Finished`
state with `(sk, rk) = hkdf_extract_expand(ck, empty)`. -/
def process_act_two (C : Crypto) (p : OutboundPeer) (act_two : Bytes)
    (our_node_secret : Nat) : TResult (Finished × Bytes × Nat) :=
  if act_two.length ≠ 50 then TResult.halt AbortKind.assertFail
  else
    match inbound_noise_act C p.bi act_two p.data.ie with
    | Except.error e => TResult.err e
    | Except.ok (re, temp_k2, st1) =>
      TResult.ok
        ({ sk := (hkdf_extract_expand C
              (hkdf_step C st1.ck (C.ecdh our_node_secret re)).1 []).1,
           sn := 0,
           sck := (hkdf_step C st1.ck (C.ecdh our_node_secret re)).1,
           rk := (hkdf_extract_expand C
              (hkdf_step C st1.ck (C.ecdh our_node_secret re)).1 []).2,
           rn := 0,
           rck := (hkdf_step C st1.ck (C.ecdh our_node_secret re)).1 },
         0 :: (encrypt_with_ad C 1 temp_k2 st1.h (C.serPub (C.pubOf our_node_secret))
            ++ encrypt_with_ad C 0 (hkdf_step C st1.ck (C.ecdh our_node_secret re)).2
                (C.sha256 (st1.h ++ encrypt_with_ad C 1 temp_k2 st1.h
                  (C.serPub (C.pubOf our_node_secret)))) []),
         p.data.their_node_id)

/-- `PeerChannelEncryptor::process_act_three`: asserts the act is 66
bytes, checks the version byte, decrypts bytes `[1..50]` at `n = 1`
under `temp_k2` to recover the remote static pubkey, parses it, mixes,
derives `temp_k` and verifies the trailing tag at `n = 0`; the
`Finished` state takes `(rk, sk) = hkdf_extract_expand(ck, empty)` —
the order inverted relative to the initiator. -/
def process_act_three (C : Crypto) (st : InboundPostActTwoState) (act_three : Bytes) :
    TResult (Finished × Nat) :=
  if act_three.length ≠ 66 then TResult.halt AbortKind.assertFail
  else if act_three.getD 0 0 ≠ 0 then TResult.err unknownVersionErr
  else
    match decrypt_with_ad C 1 st.temp_k2 st.bi.h ((act_three.drop 1).take 49) with
    | Except.error e => TResult.err e
    | Except.ok their_node_id_bytes =>
      match C.parsePub their_node_id_bytes with
      | none => TResult.err badRemoteStaticErr
      | some their_node_id =>
        match decrypt_with_ad C 0
            (hkdf_step C st.bi.ck (C.ecdh st.re their_node_id)).2
            (C.sha256 (st.bi.h ++ (act_three.drop 1).take 49)) (act_three.drop 50) with
        | Except.error e => TResult.err e
        | Except.ok _ =>
          TResult.ok
            ({ sk := (hkdf_extract_expand C
                  (hkdf_step C st.bi.ck (C.ecdh st.re their_node_id)).1 []).2,
               sn := 0,
               sck := (hkdf_step C st.bi.ck (C.ecdh st.re their_node_id)).1,
               rk := (hkdf_extract_expand C
                  (hkdf_step C st.bi.ck (C.ecdh st.re their_node_id)).1 []).1,
               rn := 0,
               rck := (hkdf_step C st.bi.ck (C.ecdh st.re their_node_id)).1 },
             their_node_id)

/-- `PeerChannelEncryptor::encrypt_message`: panics when the plaintext
exceeds 65535 bytes; rotates `(sck, sk)` and resets `sn` when
`sn ≥ 1000`; encrypts the big-endian length at nonce `sn` and the
payload at nonce `sn + 1`, incrementing `sn` after each AEAD.
Returns the result together with the post-state. -/
def encrypt_message (C : Crypto) (st : Finished) (msg : Bytes) :
    TResult Bytes × Finished :=
  if msg.length > 65535 then (TResult.halt AbortKind.tooLarge, st)
  else
    let sck1 := if st.sn ≥ 1000 then (hkdf_extract_expand C st.sck st.sk).1 else st.sck
    let sk1 := if st.sn ≥ 1000 then (hkdf_extract_expand C st.sck st.sk).2 else st.sk
    let sn1 := if st.sn ≥ 1000 then 0 else st.sn
    let lenC := encrypt_with_ad C sn1 sk1 [] (be16_to_array msg.length)
    let msgC := encrypt_with_ad C (sn1 + 1) sk1 [] msg
    (TResult.ok (lenC ++ msgC),
     { st with sk := sk1, sck := sck1, sn := sn1 + 2 })

/-- `PeerChannelEncryptor::decrypt_length_header`: asserts the input is
18 bytes; rotates `(rck, rk)` and resets `rn` when `rn ≥ 1000`;
decrypts the 2-byte length at nonce `rn` and increments `rn` on
success (on a MAC failure the rotation, if any, persists). -/
def decrypt_length_header (C : Crypto) (st : Finished) (msg : Bytes) :
    TResult Nat × Finished :=
  if msg.length ≠ 18 then (TResult.halt AbortKind.assertFail, st)
  else
    let rck1 := if st.rn ≥ 1000 then (hkdf_extract_expand C st.rck st.rk).1 else st.rck
    let rk1 := if st.rn ≥ 1000 then (hkdf_extract_expand C st.rck st.rk).2 else st.rk
    let rn1 := if st.rn ≥ 1000 then 0 else st.rn
    let st1 : Finished := { st with rk := rk1, rck := rck1, rn := rn1 }
    match decrypt_with_ad C rn1 rk1 [] msg with
    | Except.error e => (TResult.err e, st1)
    | Except.ok res => (TResult.ok (slice_to_be16 res), { st1 with rn := rn1 + 1 })

/-- `PeerChannelEncryptor::decrypt_message`: panics when the input
exceeds 65551 bytes; with fewer than 16 bytes the buffer size
`msg.len() - 16` underflows (an arithmetic-guard abort); otherwise
decrypts at nonce `rn` (no rotation check on this path) and
increments `rn` on success. -/
def decrypt_message (C : Crypto) (st : Finished) (msg : Bytes) :
    TResult Bytes × Finished :=
  if msg.length > 65535 + 16 then (TResult.halt AbortKind.tooLarge, st)
  else if msg.length < 16 then (TResult.halt AbortKind.underflow, st)
  else
    match decrypt_with_ad C st.rn st.rk [] msg with
    | Except.error e => (TResult.err e, st)
    | Except.ok res => (TResult.ok res, { st with rn := st.rn + 1 })

/-! ### A concrete instantiation of the abstract primitives

Used to evaluate the development on closed inputs: encryption is the
identity on the body, the tag is a checksum of key, nonce, associated
data and body. -/

/-- A small concrete model of the external primitives satisfying
`CryptoOk`. -/
def toyCrypto : Crypto where
  sha256 := fun bs => [bs.sum, bs.length]
  hmac := fun k m => [k.sum * 3 + m.sum, m.length]
  pubOf := fun s => s
  serPub := fun p => 1 :: p :: List.replicate 31 0
  parsePub := fun bs =>
    match bs with
    | 1 :: p :: rest => if rest = List.replicate 31 0 then some p else none
    | _ => none
  ecdh := fun a b => [a * b]
  encBody := fun _ _ _ m => m
  encTag := fun k nn ad m =>
    List.replicate 15 0 ++ [k.sum + nn.sum + ad.sum + m.sum + m.length]
  decBody := fun _ _ body => body
  decCheck := fun k nn ad body tag =>
    decide (tag = List.replicate 15 0 ++ [k.sum + nn.sum + ad.sum + body.sum + body.length])

theorem toyCryptoOk : CryptoOk toyCrypto := by
  constructor
  · intro k nn ad m; rfl
  · intro k nn ad m; simp [toyCrypto]
  · intro k nn ad m; simp [toyCrypto]
  · intro k nn ad m; rfl
  · intro p; simp [toyCrypto]
  · intro p; simp [toyCrypto]
  · intro a b; simp [toyCrypto, Nat.mul_comm]

/-! ### Shared helper lemmas -/

theorem encrypt_with_ad_length {C : Crypto} (hC : CryptoOk C)
    (n : Nat) (k ad m : Bytes) :
    (encrypt_with_ad C n k ad m).length = m.length + 16 := by
  simp [encrypt_with_ad, hC.encBody_length, hC.encTag_length]

theorem decrypt_encrypt {C : Crypto} (hC : CryptoOk C)
    (n : Nat) (k ad m : Bytes) :
    decrypt_with_ad C n k ad (encrypt_with_ad C n k ad m) = Except.ok m := by
  have h1 : (C.encBody k (nonce_for n) ad m).length = m.length :=
    hC.encBody_length _ _ _ _
  have hlen : (encrypt_with_ad C n k ad m).length - 16 = m.length := by
    simp [encrypt_with_ad_length hC]
  unfold decrypt_with_ad
  rw [hlen]
  unfold encrypt_with_ad
  rw [List.take_left' h1, List.drop_left' h1]
  simp only [hC.dec_check_enc, hC.dec_body_enc, if_true]

/-- Whether a `TResult` is a `HandleError` failure. -/
def TResult.isErr {α : Type} : TResult α → Bool
  | TResult.err _ => true
  | _ => false

/-- Defined from the spec's words (§4.1), for comparison with the
source's `hkdf_extract_expand`: `PRK = HMAC(salt, ikm)`;
`T1 = HMAC(PRK, 0x01)`; `T2 = HMAC(PRK, T1 || 0x02)`; the result is
the pair `(T1, T2)`. -/
def hkdf_spec (C : Crypto) (salt ikm : Bytes) : Bytes × Bytes :=
  let prkS := C.hmac salt ikm
  let t1S := C.hmac prkS [1]
  let t2S := C.hmac prkS (t1S ++ [2])
  (t1S, t2S)

/-- C7: for every salt and input keying material, `hkdf_extract_expand`
returns exactly the pair `(T1, T2)` defined by
`PRK = HMAC-SHA-256(salt, ikm)`, `T1 = HMAC-SHA-256(PRK, 0x01)` and
`T2 = HMAC-SHA-256(PRK, T1 || 0x02)`. -/
theorem c7_hkdf_matches_spec (C : Crypto) (salt ikm : Bytes) :
    hkdf_extract_expand C salt ikm = hkdf_spec C salt ikm := rfl

/-- C8: `encrypt_message` on a plaintext longer than 65535 bytes, and
`decrypt_message` on a ciphertext longer than 65551 bytes, abort with
the too-large precondition violation exactly when the bound is
exceeded, leave the state untouched when they do, and never surface
this condition as a `HandleError`. -/
theorem c8_payload_too_large_guards (C : Crypto) (st : Finished) (m d : Bytes) :
    ((encrypt_message C st m).1 = TResult.halt AbortKind.tooLarge ↔ 65535 < m.length)
    ∧ (65535 < m.length → (encrypt_message C st m).2 = st)
    ∧ (encrypt_message C st m).1.isErr = false
    ∧ ((decrypt_message C st d).1 = TResult.halt AbortKind.tooLarge ↔ 65551 < d.length)
    ∧ (65551 < d.length → (decrypt_message C st d).2 = st)
    ∧ (65551 < d.length → (decrypt_message C st d).1.isErr = false) := by
  refine ⟨?_, ?_, ?_, ?_, ?_, ?_⟩
  · unfold encrypt_message; split
    · simp; omega
    · simp [TResult.ok, TResult.halt]; omega
  · intro h; unfold encrypt_message; rw [if_pos (by omega)]
  · unfold encrypt_message; split <;> simp [TResult.isErr]
  · unfold decrypt_message; split
    · simp; omega
    · split
      · constructor
        · intro h; exact absurd h (by simp)
        · intro h; omega
      · split <;> simp <;> omega
  · intro h; unfold decrypt_message; rw [if_pos (by omega)]
  · intro h; unfold decrypt_message; rw [if_pos (by omega)]; simp [TResult.isErr]

/-- Witness for C8 at concrete inputs. -/
theorem c8_payload_too_large_guards_witness :
    ((encrypt_message toyCrypto ⟨[1], 0, [2], [3], 0, [4]⟩ [9]).1
        = TResult.halt AbortKind.tooLarge ↔ 65535 < ([9] : Bytes).length)
    ∧ (65535 < ([9] : Bytes).length →
        (encrypt_message toyCrypto ⟨[1], 0, [2], [3], 0, [4]⟩ [9]).2 = ⟨[1], 0, [2], [3], 0, [4]⟩)
    ∧ (encrypt_message toyCrypto ⟨[1], 0, [2], [3], 0, [4]⟩ [9]).1.isErr = false
    ∧ ((decrypt_message toyCrypto ⟨[1], 0, [2], [3], 0, [4]⟩ (List.replicate 70000 0)).1
        = TResult.halt AbortKind.tooLarge ↔ 65551 < (List.replicate 70000 0 : Bytes).length)
    ∧ (65551 < (List.replicate 70000 0 : Bytes).length →
        (decrypt_message toyCrypto ⟨[1], 0, [2], [3], 0, [4]⟩ (List.replicate 70000 0)).2
          = ⟨[1], 0, [2], [3], 0, [4]⟩)
    ∧ (65551 < (List.replicate 70000 0 : Bytes).length →
        (decrypt_message toyCrypto ⟨[1], 0, [2], [3], 0, [4]⟩ (List.replicate 70000 0)).1.isErr
          = false) :=
  c8_payload_too_large_guards toyCrypto ⟨[1], 0, [2], [3], 0, [4]⟩ [9] (List.replicate 70000 0)

/-- C10: `decrypt_message` on an input shorter than 16 bytes hits the
arithmetic-underflow guard (`msg.len() - 16` on an unsigned length)
rather than returning a `BadMAC` error. -/
theorem c10_decrypt_short_underflow (C : Crypto) (st : Finished) (msg : Bytes)
    (h : msg.length < 16) :
    (decrypt_message C st msg).1 = TResult.halt AbortKind.underflow
    ∧ (decrypt_message C st msg).1 ≠ TResult.err badMACErr := by
  unfold decrypt_message
  rw [if_neg (by omega), if_pos h]
  simp

/-- Witness for C10 at a concrete 3-byte input. -/
theorem c10_decrypt_short_underflow_witness :
    ([1, 2, 3] : Bytes).length < 16
    ∧ ((decrypt_message toyCrypto ⟨[1], 0, [2], [3], 0, [4]⟩ [1, 2, 3]).1
        = TResult.halt AbortKind.underflow
      ∧ (decrypt_message toyCrypto ⟨[1], 0, [2], [3], 0, [4]⟩ [1, 2, 3]).1
        ≠ TResult.err badMACErr) :=
  ⟨by decide, c10_decrypt_short_underflow toyCrypto ⟨[1], 0, [2], [3], 0, [4]⟩ [1, 2, 3] (by decide)⟩

/-- C6: in the `Finished` state, `encrypt_message` leaves the receive
triple `(rk, rn, rck)` unchanged, and `decrypt_length_header` and
`decrypt_message` leave the send triple `(sk, sn, sck)` unchanged; in
particular a key rotation on one direction never changes the other
direction's key, counter or chaining key. -/
theorem c6_frame_conditions (C : Crypto) (st : Finished) (m hdr ct : Bytes) :
    ((encrypt_message C st m).2.rk = st.rk ∧ (encrypt_message C st m).2.rn = st.rn
      ∧ (encrypt_message C st m).2.rck = st.rck)
    ∧ ((decrypt_length_header C st hdr).2.sk = st.sk
      ∧ (decrypt_length_header C st hdr).2.sn = st.sn
      ∧ (decrypt_length_header C st hdr).2.sck = st.sck)
    ∧ ((decrypt_message C st ct).2.sk = st.sk
      ∧ (decrypt_message C st ct).2.sn = st.sn
      ∧ (decrypt_message C st ct).2.sck = st.sck) := by
  refine ⟨?_, ?_, ?_⟩
  · unfold encrypt_message; split <;> simp
  · unfold decrypt_length_header; split
    · simp
    · split
      · cases hdec : decrypt_with_ad C 0 (hkdf_extract_expand C st.rck st.rk).2 [] hdr <;>
          simp [hdec]
      · cases hdec : decrypt_with_ad C st.rn st.rk [] hdr <;> simp [hdec]
  · unfold decrypt_message; split
    · simp
    · split
      · simp
      · cases hdec : decrypt_with_ad C st.rn st.rk [] ct <;> simp [hdec]

/-- C3: when a direction's counter has reached 1000, the key rotation
happens at the top of `encrypt_message` (send) and of
`decrypt_length_header` (receive), before the AEAD that would have
used counter 1000: the chaining key becomes
`hkdf_extract_expand(old ck, old key).1`, the key becomes `.2`, the
counter resets to 0, and the next AEAD on that direction (the 1001st)
runs under the new key at nonce 0 — each call behaves exactly as the
same call on the rotated state. -/
theorem c3_rekey_before_aead (C : Crypto) (st : Finished) (m hdr : Bytes)
    (hm : m.length ≤ 65535) (hs : st.sn = 1000) (hr : st.rn = 1000)
    (hh : hdr.length = 18) :
    (encrypt_message C st m).2.sck = (hkdf_extract_expand C st.sck st.sk).1
    ∧ (encrypt_message C st m).2.sk = (hkdf_extract_expand C st.sck st.sk).2
    ∧ (encrypt_message C st m).2.sn = 2
    ∧ (encrypt_message C st m).1 =
        TResult.ok
          (encrypt_with_ad C 0 (hkdf_extract_expand C st.sck st.sk).2 []
              (be16_to_array m.length)
            ++ encrypt_with_ad C 1 (hkdf_extract_expand C st.sck st.sk).2 [] m)
    ∧ encrypt_message C st m =
        encrypt_message C
          { st with sck := (hkdf_extract_expand C st.sck st.sk).1,
                    sk := (hkdf_extract_expand C st.sck st.sk).2, sn := 0 } m
    ∧ (decrypt_length_header C st hdr).2.rck = (hkdf_extract_expand C st.rck st.rk).1
    ∧ (decrypt_length_header C st hdr).2.rk = (hkdf_extract_expand C st.rck st.rk).2
    ∧ decrypt_length_header C st hdr =
        decrypt_length_header C
          { st with rck := (hkdf_extract_expand C st.rck st.rk).1,
                    rk := (hkdf_extract_expand C st.rck st.rk).2, rn := 0 } hdr := by
  have h1 : ¬ (m.length > 65535) := by omega
  refine ⟨?_, ?_, ?_, ?_, ?_, ?_, ?_, ?_⟩ <;>
    · simp only [encrypt_message, decrypt_length_header, hs, hr, hh, h1]
      simp
      try rfl
      try (cases hdec : decrypt_with_ad C 0 (hkdf_extract_expand C st.rck st.rk).2 [] hdr <;>
        simp [hdec])

/-- Witness for C3 at a concrete state with both counters at 1000. -/
theorem c3_rekey_before_aead_witness :
    ([7, 8] : Bytes).length ≤ 65535
    ∧ (⟨[1], 1000, [2], [3], 1000, [4]⟩ : Finished).sn = 1000
    ∧ (⟨[1], 1000, [2], [3], 1000, [4]⟩ : Finished).rn = 1000
    ∧ (List.replicate 18 0 : Bytes).length = 18
    ∧ ((encrypt_message toyCrypto ⟨[1], 1000, [2], [3], 1000, [4]⟩ [7, 8]).2.sck
        = (hkdf_extract_expand toyCrypto [2] [1]).1
      ∧ (encrypt_message toyCrypto ⟨[1], 1000, [2], [3], 1000, [4]⟩ [7, 8]).2.sk
        = (hkdf_extract_expand toyCrypto [2] [1]).2
      ∧ (encrypt_message toyCrypto ⟨[1], 1000, [2], [3], 1000, [4]⟩ [7, 8]).2.sn = 2
      ∧ (encrypt_message toyCrypto ⟨[1], 1000, [2], [3], 1000, [4]⟩ [7, 8]).1 =
          TResult.ok
            (encrypt_with_ad toyCrypto 0 (hkdf_extract_expand toyCrypto [2] [1]).2 []
                (be16_to_array ([7, 8] : Bytes).length)
              ++ encrypt_with_ad toyCrypto 1 (hkdf_extract_expand toyCrypto [2] [1]).2 [] [7, 8])
      ∧ encrypt_message toyCrypto ⟨[1], 1000, [2], [3], 1000, [4]⟩ [7, 8] =
          encrypt_message toyCrypto
            { (⟨[1], 1000, [2], [3], 1000, [4]⟩ : Finished) with
                sck := (hkdf_extract_expand toyCrypto [2] [1]).1,
                sk := (hkdf_extract_expand toyCrypto [2] [1]).2, sn := 0 } [7, 8]
      ∧ (decrypt_length_header toyCrypto ⟨[1], 1000, [2], [3], 1000, [4]⟩
            (List.replicate 18 0)).2.rck = (hkdf_extract_expand toyCrypto [4] [3]).1
      ∧ (decrypt_length_header toyCrypto ⟨[1], 1000, [2], [3], 1000, [4]⟩
            (List.replicate 18 0)).2.rk = (hkdf_extract_expand toyCrypto [4] [3]).2
      ∧ decrypt_length_header toyCrypto ⟨[1], 1000, [2], [3], 1000, [4]⟩ (List.replicate 18 0) =
          decrypt_length_header toyCrypto
            { (⟨[1], 1000, [2], [3], 1000, [4]⟩ : Finished) with
                rck := (hkdf_extract_expand toyCrypto [4] [3]).1,
                rk := (hkdf_extract_expand toyCrypto [4] [3]).2, rn := 0 }
            (List.replicate 18 0)) :=
  ⟨by decide, rfl, rfl, by decide,
    c3_rekey_before_aead toyCrypto ⟨[1], 1000, [2], [3], 1000, [4]⟩ [7, 8]
      (List.replicate 18 0) (by decide) rfl rfl (by decide)⟩

theorem slice_to_be16_be16 (n : Nat) (h : n ≤ 65535) :
    slice_to_be16 (be16_to_array n) = n := by
  simp [slice_to_be16, be16_to_array, List.getD]
  omega

/-- C2: for synchronized `Finished` peers below the rotation threshold
and a plaintext of at most 65535 bytes, splitting the output of
`encrypt_message` after 18 bytes gives a prefix that
`decrypt_length_header` decrypts to the plaintext length and a payload
that `decrypt_message` decrypts back to the plaintext. -/
theorem c2_transport_roundtrip (C : Crypto) (stS stR : Finished) (m : Bytes)
    (hC : CryptoOk C)
    (hk : stS.sk = stR.rk) (hck : stS.sck = stR.rck) (hn : stS.sn = stR.rn)
    (hlt : stS.sn < 1000) (hm : m.length ≤ 65535) :
    (encrypt_message C stS m).1 = TResult.ok (((encrypt_message C stS m).1).valD [])
    ∧ (decrypt_length_header C stR ((((encrypt_message C stS m).1).valD []).take 18)).1
        = TResult.ok m.length
    ∧ (decrypt_message C
          (decrypt_length_header C stR ((((encrypt_message C stS m).1).valD []).take 18)).2
          ((((encrypt_message C stS m).1).valD []).drop 18)).1 = TResult.ok m := by
  have hnrot : ¬ (1000 ≤ stS.sn) := by omega
  have henc1 : (encrypt_message C stS m).1 =
      TResult.ok (encrypt_with_ad C stS.sn stS.sk [] (be16_to_array m.length)
        ++ encrypt_with_ad C (stS.sn + 1) stS.sk [] m) := by
    simp only [encrypt_message]
    rw [if_neg (by omega)]
    simp [ge_iff_le, hnrot]
  have hval : ((encrypt_message C stS m).1).valD [] =
      encrypt_with_ad C stS.sn stS.sk [] (be16_to_array m.length)
        ++ encrypt_with_ad C (stS.sn + 1) stS.sk [] m := by
    rw [henc1]
    rfl
  have hlen18 : (encrypt_with_ad C stS.sn stS.sk [] (be16_to_array m.length)).length = 18 := by
    rw [encrypt_with_ad_length hC]
    rfl
  have htake : (encrypt_with_ad C stS.sn stS.sk [] (be16_to_array m.length)
      ++ encrypt_with_ad C (stS.sn + 1) stS.sk [] m).take 18 =
      encrypt_with_ad C stS.sn stS.sk [] (be16_to_array m.length) :=
    List.take_left' hlen18
  have hdrop : (encrypt_with_ad C stS.sn stS.sk [] (be16_to_array m.length)
      ++ encrypt_with_ad C (stS.sn + 1) stS.sk [] m).drop 18 =
      encrypt_with_ad C (stS.sn + 1) stS.sk [] m :=
    List.drop_left' hlen18
  have hhdr : decrypt_length_header C stR
      (encrypt_with_ad C stS.sn stS.sk [] (be16_to_array m.length)) =
      (TResult.ok m.length, { stR with rn := stR.rn + 1 }) := by
    have h1 : ¬ (stR.rn ≥ 1000) := by omega
    simp only [decrypt_length_header]
    rw [if_neg (by simp [hlen18])]
    simp only [ge_iff_le, h1, if_false]
    simp only [← hn, ← hk]
    rw [decrypt_encrypt hC]
    simp [slice_to_be16_be16 m.length hm, ← hn]
  have hmsg : decrypt_message C { stR with rn := stR.rn + 1 }
      (encrypt_with_ad C (stS.sn + 1) stS.sk [] m) =
      (TResult.ok m, { stR with rn := stR.rn + 1 + 1 }) := by
    simp only [decrypt_message]
    rw [if_neg (by rw [encrypt_with_ad_length hC]; omega)]
    rw [if_neg (by rw [encrypt_with_ad_length hC]; omega)]
    simp only [← hn, ← hk]
    rw [decrypt_encrypt hC]
  refine ⟨?_, ?_, ?_⟩
  · rw [henc1]
    rfl
  · rw [hval, htake, hhdr]
  · rw [hval, htake, hdrop, hhdr, hmsg]

/-- Witness for C2 at concrete synchronized states and plaintext
`[10, 20]`. -/
theorem c2_transport_roundtrip_witness :
    CryptoOk toyCrypto
    ∧ (⟨[1], 5, [2], [3], 0, [4]⟩ : Finished).sk = (⟨[5], 7, [6], [1], 5, [2]⟩ : Finished).rk
    ∧ (⟨[1], 5, [2], [3], 0, [4]⟩ : Finished).sck = (⟨[5], 7, [6], [1], 5, [2]⟩ : Finished).rck
    ∧ (⟨[1], 5, [2], [3], 0, [4]⟩ : Finished).sn = (⟨[5], 7, [6], [1], 5, [2]⟩ : Finished).rn
    ∧ (⟨[1], 5, [2], [3], 0, [4]⟩ : Finished).sn < 1000
    ∧ ([10, 20] : Bytes).length ≤ 65535
    ∧ ((encrypt_message toyCrypto ⟨[1], 5, [2], [3], 0, [4]⟩ [10, 20]).1 =
        TResult.ok (((encrypt_message toyCrypto ⟨[1], 5, [2], [3], 0, [4]⟩ [10, 20]).1).valD [])
      ∧ (decrypt_length_header toyCrypto ⟨[5], 7, [6], [1], 5, [2]⟩
            ((((encrypt_message toyCrypto ⟨[1], 5, [2], [3], 0, [4]⟩ [10, 20]).1).valD
                []).take 18)).1 = TResult.ok ([10, 20] : Bytes).length
      ∧ (decrypt_message toyCrypto
            (decrypt_length_header toyCrypto ⟨[5], 7, [6], [1], 5, [2]⟩
              ((((encrypt_message toyCrypto ⟨[1], 5, [2], [3], 0, [4]⟩ [10, 20]).1).valD
                  []).take 18)).2
            ((((encrypt_message toyCrypto ⟨[1], 5, [2], [3], 0, [4]⟩ [10, 20]).1).valD
                []).drop 18)).1 = TResult.ok [10, 20]) :=
  ⟨toyCryptoOk, rfl, rfl, rfl, by decide, by decide,
    c2_transport_roundtrip toyCrypto ⟨[1], 5, [2], [3], 0, [4]⟩ ⟨[5], 7, [6], [1], 5, [2]⟩
      [10, 20] toyCryptoOk rfl rfl rfl (by decide) (by decide)⟩

/-- States reachable from a counters-zero send state (as produced by a
completed handshake) through successful `encrypt_message` calls
alone. -/
inductive ReachEnc (C : Crypto) : Finished → Prop where
  | init : ∀ st : Finished, st.sn = 0 → ReachEnc C st
  | step : ∀ (st : Finished) (m out : Bytes), ReachEnc C st →
      (encrypt_message C st m).1 = TResult.ok out →
      ReachEnc C (encrypt_message C st m).2

theorem reachEnc_sn_invariant {C : Crypto} {st : Finished} (h : ReachEnc C st) :
    st.sn % 2 = 0 ∧ st.sn ≤ 1000 := by
  induction h with
  | init st h0 => omega
  | step st m out _ hok ih =>
    by_cases hlen : m.length > 65535
    · exfalso
      simp [encrypt_message, hlen] at hok
    · have h2 : (encrypt_message C st m).2.sn = (if 1000 ≤ st.sn then 0 else st.sn) + 2 := by
        simp [encrypt_message, hlen, ge_iff_le]
      rw [h2]
      by_cases hrot : 1000 ≤ st.sn <;> simp [hrot] <;> omega

/-- C9: on every state reachable from a completed handshake through
`encrypt_message` calls, the send counter is even and at most 1000, so
the rotation check fires exactly at `sn = 1000`, `sn = 999` is
unreachable on entry, and the payload AEAD of a call runs at a nonce
of at most 999 — never at nonce 1000 under a pre-rotation key. -/
theorem c9_send_counter_invariant (C : Crypto) (st : Finished) (m : Bytes)
    (hR : ReachEnc C st) (hm : m.length ≤ 65535) :
    st.sn % 2 = 0 ∧ st.sn ≤ 1000 ∧ st.sn ≠ 999 ∧ (1000 ≤ st.sn ↔ st.sn = 1000)
    ∧ (encrypt_message C st m).1 =
        TResult.ok
          (encrypt_with_ad C (if 1000 ≤ st.sn then 0 else st.sn)
              (if 1000 ≤ st.sn then (hkdf_extract_expand C st.sck st.sk).2 else st.sk) []
              (be16_to_array m.length)
            ++ encrypt_with_ad C ((if 1000 ≤ st.sn then 0 else st.sn) + 1)
              (if 1000 ≤ st.sn then (hkdf_extract_expand C st.sck st.sk).2 else st.sk) [] m)
    ∧ (if 1000 ≤ st.sn then 0 else st.sn) + 1 ≤ 999 := by
  obtain ⟨he, hle⟩ := reachEnc_sn_invariant hR
  refine ⟨he, hle, by omega, by constructor <;> omega, ?_, ?_⟩
  · simp only [encrypt_message]
    rw [if_neg (by omega : ¬ (m.length > 65535))]
  · by_cases hrot : 1000 ≤ st.sn <;> simp [hrot] <;> omega

/-- Witness for C9 at the counters-zero state and plaintext `[5]`. -/
theorem c9_send_counter_invariant_witness :
    ReachEnc toyCrypto ⟨[1], 0, [2], [3], 0, [4]⟩
    ∧ ([5] : Bytes).length ≤ 65535
    ∧ ((⟨[1], 0, [2], [3], 0, [4]⟩ : Finished).sn % 2 = 0
      ∧ (⟨[1], 0, [2], [3], 0, [4]⟩ : Finished).sn ≤ 1000
      ∧ (⟨[1], 0, [2], [3], 0, [4]⟩ : Finished).sn ≠ 999
      ∧ (1000 ≤ (⟨[1], 0, [2], [3], 0, [4]⟩ : Finished).sn
          ↔ (⟨[1], 0, [2], [3], 0, [4]⟩ : Finished).sn = 1000)
      ∧ (encrypt_message toyCrypto ⟨[1], 0, [2], [3], 0, [4]⟩ [5]).1 =
          TResult.ok
            (encrypt_with_ad toyCrypto
                (if 1000 ≤ (⟨[1], 0, [2], [3], 0, [4]⟩ : Finished).sn then 0
                  else (⟨[1], 0, [2], [3], 0, [4]⟩ : Finished).sn)
                (if 1000 ≤ (⟨[1], 0, [2], [3], 0, [4]⟩ : Finished).sn
                  then (hkdf_extract_expand toyCrypto [2] [1]).2 else [1]) []
                (be16_to_array ([5] : Bytes).length)
              ++ encrypt_with_ad toyCrypto
                ((if 1000 ≤ (⟨[1], 0, [2], [3], 0, [4]⟩ : Finished).sn then 0
                  else (⟨[1], 0, [2], [3], 0, [4]⟩ : Finished).sn) + 1)
                (if 1000 ≤ (⟨[1], 0, [2], [3], 0, [4]⟩ : Finished).sn
                  then (hkdf_extract_expand toyCrypto [2] [1]).2 else [1]) [] [5])
      ∧ (if 1000 ≤ (⟨[1], 0, [2], [3], 0, [4]⟩ : Finished).sn then 0
          else (⟨[1], 0, [2], [3], 0, [4]⟩ : Finished).sn) + 1 ≤ 999) :=
  ⟨ReachEnc.init ⟨[1], 0, [2], [3], 0, [4]⟩ rfl, by decide,
    c9_send_counter_invariant toyCrypto ⟨[1], 0, [2], [3], 0, [4]⟩ [5]
      (ReachEnc.init ⟨[1], 0, [2], [3], 0, [4]⟩ rfl) (by decide)⟩

/-- States reachable from a counters-zero `Finished` state through any
sequence of successful public transport operations. -/
inductive ReachAll (C : Crypto) : Finished → Prop where
  | init : ∀ st : Finished, st.sn = 0 → st.rn = 0 → ReachAll C st
  | stepEnc : ∀ (st : Finished) (m out : Bytes), ReachAll C st →
      (encrypt_message C st m).1 = TResult.ok out →
      ReachAll C (encrypt_message C st m).2
  | stepHdr : ∀ (st : Finished) (msg : Bytes) (L : Nat), ReachAll C st →
      (decrypt_length_header C st msg).1 = TResult.ok L →
      ReachAll C (decrypt_length_header C st msg).2
  | stepMsg : ∀ (st : Finished) (msg pt : Bytes), ReachAll C st →
      (decrypt_message C st msg).1 = TResult.ok pt →
      ReachAll C (decrypt_message C st msg).2

/-- States reachable when the receive operations alternate — each
`decrypt_message` is preceded by a successful `decrypt_length_header`.
The flag records whether a payload decrypt is pending. -/
inductive ReachAlt (C : Crypto) : Finished → Bool → Prop where
  | init : ∀ st : Finished, st.sn = 0 → st.rn = 0 → ReachAlt C st false
  | stepEnc : ∀ (st : Finished) (b : Bool) (m out : Bytes), ReachAlt C st b →
      (encrypt_message C st m).1 = TResult.ok out →
      ReachAlt C (encrypt_message C st m).2 b
  | stepHdr : ∀ (st : Finished) (msg : Bytes) (L : Nat), ReachAlt C st false →
      (decrypt_length_header C st msg).1 = TResult.ok L →
      ReachAlt C (decrypt_length_header C st msg).2 true
  | stepMsg : ∀ (st : Finished) (msg pt : Bytes), ReachAlt C st true →
      (decrypt_message C st msg).1 = TResult.ok pt →
      ReachAlt C (decrypt_message C st msg).2 false

theorem encrypt_message_state (C : Crypto) (st : Finished) (m : Bytes)
    (h : ¬ (m.length > 65535)) :
    (encrypt_message C st m).2 =
      { st with
        sk := if 1000 ≤ st.sn then (hkdf_extract_expand C st.sck st.sk).2 else st.sk,
        sck := if 1000 ≤ st.sn then (hkdf_extract_expand C st.sck st.sk).1 else st.sck,
        sn := (if 1000 ≤ st.sn then 0 else st.sn) + 2 } := by
  simp only [encrypt_message]
  rw [if_neg h]

theorem decrypt_length_header_ok_state {C : Crypto} {st : Finished} {msg : Bytes} {L : Nat}
    (h : (decrypt_length_header C st msg).1 = TResult.ok L) :
    (decrypt_length_header C st msg).2.sn = st.sn
    ∧ (decrypt_length_header C st msg).2.rn = (if 1000 ≤ st.rn then 0 else st.rn) + 1 := by
  by_cases h18 : msg.length ≠ 18
  · exfalso; simp [decrypt_length_header, h18] at h
  · by_cases hrot : 1000 ≤ st.rn
    · cases hdec : decrypt_with_ad C 0 (hkdf_extract_expand C st.rck st.rk).2 [] msg with
      | error e => exfalso; simp [decrypt_length_header, h18, hrot, ge_iff_le, hdec] at h
      | ok res => constructor <;> simp [decrypt_length_header, h18, hrot, ge_iff_le, hdec]
    · cases hdec : decrypt_with_ad C st.rn st.rk [] msg with
      | error e => exfalso; simp [decrypt_length_header, h18, hrot, ge_iff_le, hdec] at h
      | ok res => constructor <;> simp [decrypt_length_header, h18, hrot, ge_iff_le, hdec]

theorem decrypt_message_ok_state {C : Crypto} {st : Finished} {msg pt : Bytes}
    (h : (decrypt_message C st msg).1 = TResult.ok pt) :
    (decrypt_message C st msg).2 = { st with rn := st.rn + 1 } := by
  by_cases h1 : msg.length > 65535 + 16
  · exfalso; simp [decrypt_message, h1] at h
  · by_cases h2 : msg.length < 16
    · exfalso; simp [decrypt_message, h1, h2] at h
    · cases hdec : decrypt_with_ad C st.rn st.rk [] msg with
      | error e => exfalso; simp [decrypt_message, h1, h2, hdec] at h
      | ok res => simp [decrypt_message, h1, h2, hdec]

theorem reachAlt_invariant {C : Crypto} {st : Finished} {b : Bool}
    (h : ReachAlt C st b) :
    st.sn % 2 = 0 ∧ st.sn ≤ 1000 ∧ st.rn ≤ 1000
    ∧ (b = false → st.rn % 2 = 0) ∧ (b = true → st.rn % 2 = 1) := by
  induction h with
  | init st h0 h1 =>
    exact ⟨by omega, by omega, by omega, fun _ => by omega, fun hb => Bool.noConfusion hb⟩
  | stepEnc st b m out hr hok ih =>
    have hlen : ¬ (m.length > 65535) := by
      intro hl
      simp [encrypt_message, hl] at hok
    obtain ⟨i1, i2, i3, i4, i5⟩ := ih
    rw [encrypt_message_state C st m hlen]
    refine ⟨?_, ?_, i3, i4, i5⟩
    · show ((if 1000 ≤ st.sn then 0 else st.sn) + 2) % 2 = 0
      by_cases hrot : 1000 ≤ st.sn <;> simp [hrot] <;> omega
    · show (if 1000 ≤ st.sn then 0 else st.sn) + 2 ≤ 1000
      by_cases hrot : 1000 ≤ st.sn <;> simp [hrot] <;> omega
  | stepHdr st msg L hr hok ih =>
    obtain ⟨i1, i2, i3, i4, i5⟩ := ih
    obtain ⟨e1, e2⟩ := decrypt_length_header_ok_state hok
    have hrn0 : st.rn % 2 = 0 := i4 rfl
    refine ⟨?_, ?_, ?_, ?_, ?_⟩
    · rw [e1]; exact i1
    · rw [e1]; exact i2
    · rw [e2]; by_cases hrot : 1000 ≤ st.rn <;> simp [hrot] <;> omega
    · intro hb; exact Bool.noConfusion hb
    · intro _; rw [e2]
      by_cases hrot : 1000 ≤ st.rn <;> simp [hrot] <;> omega
  | stepMsg st msg pt hr hok ih =>
    obtain ⟨i1, i2, i3, i4, i5⟩ := ih
    have hrn1 : st.rn % 2 = 1 := i5 rfl
    rw [decrypt_message_ok_state hok]
    refine ⟨i1, i2, ?_, ?_, ?_⟩
    · show st.rn + 1 ≤ 1000
      omega
    · intro _; show (st.rn + 1) % 2 = 0; omega
    · intro hb; exact Bool.noConfusion hb

/-- With the identity-body toy AEAD, a 16-byte frame encrypted at the
receiver's current key and nonce decrypts successfully and bumps
`rn` by one. -/
theorem toy_msg_step (st : Finished) :
    (decrypt_message toyCrypto st (encrypt_with_ad toyCrypto st.rn st.rk [] [])).1
      = TResult.ok []
    ∧ (decrypt_message toyCrypto st (encrypt_with_ad toyCrypto st.rn st.rk [] [])).2
      = { st with rn := st.rn + 1 } := by
  have hlen : (encrypt_with_ad toyCrypto st.rn st.rk [] []).length = 16 := by
    rw [encrypt_with_ad_length toyCryptoOk]
    rfl
  constructor <;>
  · simp only [decrypt_message]
    rw [if_neg (by omega), if_neg (by omega), decrypt_encrypt toyCryptoOk]

theorem toy_reach_rn (n : Nat) (st : Finished) (h : ReachAll toyCrypto st) :
    ReachAll toyCrypto { st with rn := st.rn + n } := by
  induction n with
  | zero => exact h
  | succ k ih =>
    have hs := toy_msg_step { st with rn := st.rn + k }
    have step := ReachAll.stepMsg { st with rn := st.rn + k }
      (encrypt_with_ad toyCrypto ({ st with rn := st.rn + k } : Finished).rn
        ({ st with rn := st.rn + k } : Finished).rk [] []) [] ih hs.1
    rw [hs.2] at step
    exact step

/-- C4 counterexample: a `Finished` state with `rn = 1001` is reachable
through the public interface alone (1001 successful `decrypt_message`
calls, which never rotate the receive direction), so the counters are
not always in `[0, 1000]` at operation boundaries. -/
theorem c4_counterexample :
    ReachAll toyCrypto ⟨[1], 0, [2], [3], 1001, [4]⟩
    ∧ ¬ ((⟨[1], 0, [2], [3], 1001, [4]⟩ : Finished).rn ≤ 1000) :=
  ⟨toy_reach_rn 1001 ⟨[1], 0, [2], [3], 0, [4]⟩
      (ReachAll.init ⟨[1], 0, [2], [3], 0, [4]⟩ rfl rfl),
    by decide⟩

theorem reachAll_sn_invariant {C : Crypto} {st : Finished} (h : ReachAll C st) :
    st.sn % 2 = 0 ∧ st.sn ≤ 1000 := by
  induction h with
  | init st h0 h1 => omega
  | stepEnc st m out hr hok ih =>
    have hlen : ¬ (m.length > 65535) := by
      intro hl
      simp [encrypt_message, hl] at hok
    rw [encrypt_message_state C st m hlen]
    obtain ⟨i1, i2⟩ := ih
    constructor
    · show ((if 1000 ≤ st.sn then 0 else st.sn) + 2) % 2 = 0
      by_cases hrot : 1000 ≤ st.sn <;> simp [hrot] <;> omega
    · show (if 1000 ≤ st.sn then 0 else st.sn) + 2 ≤ 1000
      by_cases hrot : 1000 ≤ st.sn <;> simp [hrot] <;> omega
  | stepHdr st msg L hr hok ih =>
    obtain ⟨e1, e2⟩ := decrypt_length_header_ok_state hok
    rw [e1]
    exact ih
  | stepMsg st msg pt hr hok ih =>
    rw [decrypt_message_ok_state hok]
    exact ih

/-- C4 (amended): in every `Finished` state reachable from the
counters-zero state through any sequence of successful public
transport operations, `sn` stays in `[0, 1000]` at operation
boundaries; and when the receive operations alternate (each
`decrypt_message` preceded by a successful `decrypt_length_header`),
`rn` stays in `[0, 1000]` as well. -/
theorem c4_amended_counters_bounded (C : Crypto) (st st' : Finished) (b : Bool)
    (hAll : ReachAll C st) (hAlt : ReachAlt C st' b) :
    st.sn ≤ 1000 ∧ st'.sn ≤ 1000 ∧ st'.rn ≤ 1000 := by
  obtain ⟨-, h1⟩ := reachAll_sn_invariant hAll
  obtain ⟨-, h2, h3, -, -⟩ := reachAlt_invariant hAlt
  exact ⟨h1, h2, h3⟩

/-- Witness for the amended C4 at the counters-zero state. -/
theorem c4_amended_counters_bounded_witness :
    ReachAll toyCrypto ⟨[1], 0, [2], [3], 0, [4]⟩
    ∧ ReachAlt toyCrypto ⟨[5], 0, [6], [7], 0, [8]⟩ false
    ∧ ((⟨[1], 0, [2], [3], 0, [4]⟩ : Finished).sn ≤ 1000
      ∧ (⟨[5], 0, [6], [7], 0, [8]⟩ : Finished).sn ≤ 1000
      ∧ (⟨[5], 0, [6], [7], 0, [8]⟩ : Finished).rn ≤ 1000) :=
  ⟨ReachAll.init ⟨[1], 0, [2], [3], 0, [4]⟩ rfl rfl,
    ReachAlt.init ⟨[5], 0, [6], [7], 0, [8]⟩ rfl rfl,
    c4_amended_counters_bounded toyCrypto ⟨[1], 0, [2], [3], 0, [4]⟩
      ⟨[5], 0, [6], [7], 0, [8]⟩ false
      (ReachAll.init ⟨[1], 0, [2], [3], 0, [4]⟩ rfl rfl)
      (ReachAlt.init ⟨[5], 0, [6], [7], 0, [8]⟩ rfl rfl)⟩

theorem errs_distinct :
    unknownVersionErr ≠ invalidPubKeyErr ∧ unknownVersionErr ≠ badMACErr
    ∧ invalidPubKeyErr ≠ badMACErr := by
  refine ⟨?_, ?_, ?_⟩ <;> decide

theorem process_act_two_err_iff {C : Crypto} {p : OutboundPeer} {act : Bytes} {sI : Nat}
    (hlen : act.length = 50) (e : HandleError) :
    process_act_two C p act sI = TResult.err e
      ↔ inbound_noise_act C p.bi act p.data.ie = Except.error e := by
  simp only [process_act_two]
  rw [if_neg (by simp [hlen])]
  cases hin : inbound_noise_act C p.bi act p.data.ie with
  | error e2 => simp [hin]
  | ok v => obtain ⟨a, b, c⟩ := v; simp [hin]

theorem process_act_one_err_iff {C : Crypto} {st : BidirectionalNoiseState} {act : Bytes}
    {sI eR : Nat} (hlen : act.length = 50) (e : HandleError) :
    process_act_one_with_keys C st act sI eR = TResult.err e
      ↔ inbound_noise_act C st act sI = Except.error e := by
  simp only [process_act_one_with_keys]
  rw [if_neg (by simp [hlen])]
  cases hin : inbound_noise_act C st act sI with
  | error e2 => simp [hin]
  | ok v => obtain ⟨a, b, c⟩ := v; simp [hin]

theorem inbound_noise_act_parse_some {C : Crypto} {state : BidirectionalNoiseState}
    {act : Bytes} {k tp : Nat}
    (hp : C.parsePub ((act.drop 1).take 33) = some tp) (h0 : act.getD 0 0 = 0) :
    inbound_noise_act C state act k =
      match decrypt_with_ad C 0 (hkdf_step C state.ck (C.ecdh k tp)).2
          (C.sha256 (state.h ++ C.serPub tp)) (act.drop 34) with
      | Except.error e => Except.error e
      | Except.ok _ =>
        Except.ok (tp, (hkdf_step C state.ck (C.ecdh k tp)).2,
          { h := C.sha256 (C.sha256 (state.h ++ C.serPub tp) ++ act.drop 34),
            ck := (hkdf_step C state.ck (C.ecdh k tp)).1 }) := by
  unfold inbound_noise_act
  rw [if_neg (not_not_intro h0), hp]

theorem inbound_noise_act_err_cases (C : Crypto) (state : BidirectionalNoiseState)
    (act : Bytes) (k : Nat) :
    (inbound_noise_act C state act k = Except.error unknownVersionErr ↔ act.getD 0 0 ≠ 0)
    ∧ (act.getD 0 0 = 0 →
        (inbound_noise_act C state act k = Except.error invalidPubKeyErr
          ↔ C.parsePub ((act.drop 1).take 33) = none))
    ∧ (act.getD 0 0 = 0 → C.parsePub ((act.drop 1).take 33) ≠ none →
        (inbound_noise_act C state act k = Except.error badMACErr
          ↔ C.decCheck
              ((hkdf_step C state.ck
                (C.ecdh k ((C.parsePub ((act.drop 1).take 33)).getD 0))).2)
              (nonce_for 0)
              (C.sha256 (state.h
                ++ C.serPub ((C.parsePub ((act.drop 1).take 33)).getD 0)))
              ((act.drop 34).take ((act.drop 34).length - 16))
              ((act.drop 34).drop ((act.drop 34).length - 16)) = false)) := by
  by_cases h0 : act.getD 0 0 = 0
  · cases hp : C.parsePub ((act.drop 1).take 33) with
    | none =>
      have hrun : inbound_noise_act C state act k = Except.error invalidPubKeyErr := by
        unfold inbound_noise_act
        rw [if_neg (not_not_intro h0), hp]
      refine ⟨?_, fun _ => ?_, fun _ hne => absurd rfl hne⟩
      · rw [hrun]
        simp only [Except.error.injEq]
        constructor
        · intro hx; exact absurd hx.symm errs_distinct.1
        · intro hx; exact absurd h0 hx
      · rw [hrun]
        constructor
        · intro _; rfl
        · intro _; rfl
    | some tp =>
      by_cases hd : C.decCheck ((hkdf_step C state.ck (C.ecdh k tp)).2) (nonce_for 0)
          (C.sha256 (state.h ++ C.serPub tp))
          ((act.drop 34).take ((act.drop 34).length - 16))
          ((act.drop 34).drop ((act.drop 34).length - 16)) = true
      · have hdec : decrypt_with_ad C 0 (hkdf_step C state.ck (C.ecdh k tp)).2
            (C.sha256 (state.h ++ C.serPub tp)) (act.drop 34) =
            Except.ok (C.decBody (hkdf_step C state.ck (C.ecdh k tp)).2 (nonce_for 0)
              ((act.drop 34).take ((act.drop 34).length - 16))) := by
          unfold decrypt_with_ad
          rw [if_pos hd]
        have hrun : inbound_noise_act C state act k =
            Except.ok (tp, (hkdf_step C state.ck (C.ecdh k tp)).2,
              { h := C.sha256 (C.sha256 (state.h ++ C.serPub tp) ++ act.drop 34),
                ck := (hkdf_step C state.ck (C.ecdh k tp)).1 }) := by
          rw [inbound_noise_act_parse_some hp h0, hdec]
        refine ⟨?_, fun _ => ?_, fun _ _ => ?_⟩
        · rw [hrun]
          constructor
          · intro hx; exact Except.noConfusion hx
          · intro hx; exact absurd h0 hx
        · rw [hrun]
          constructor
          · intro hx; exact Except.noConfusion hx
          · intro hx; exact Option.noConfusion hx
        · rw [hrun]
          simp only [Option.getD_some]
          constructor
          · intro hx; exact Except.noConfusion hx
          · intro hx; exact Bool.noConfusion (hd.symm.trans hx)
      · have hd' : C.decCheck ((hkdf_step C state.ck (C.ecdh k tp)).2) (nonce_for 0)
            (C.sha256 (state.h ++ C.serPub tp))
            ((act.drop 34).take ((act.drop 34).length - 16))
            ((act.drop 34).drop ((act.drop 34).length - 16)) = false :=
          Bool.eq_false_iff.mpr hd
        have hdec : decrypt_with_ad C 0 (hkdf_step C state.ck (C.ecdh k tp)).2
            (C.sha256 (state.h ++ C.serPub tp)) (act.drop 34) =
            Except.error badMACErr := by
          unfold decrypt_with_ad
          rw [if_neg hd]
        have hrun : inbound_noise_act C state act k = Except.error badMACErr := by
          rw [inbound_noise_act_parse_some hp h0, hdec]
        refine ⟨?_, fun _ => ?_, fun _ _ => ?_⟩
        · rw [hrun]
          simp only [Except.error.injEq]
          constructor
          · intro hx; exact absurd hx.symm errs_distinct.2.1
          · intro hx; exact absurd h0 hx
        · rw [hrun]
          simp only [Except.error.injEq]
          constructor
          · intro hx; exact absurd hx.symm errs_distinct.2.2
          · intro hx; exact Option.noConfusion hx
        · rw [hrun]
          simp only [Option.getD_some]
          constructor
          · intro _; exact hd'
          · intro _; trivial
  · have hrun : inbound_noise_act C state act k = Except.error unknownVersionErr := by
      unfold inbound_noise_act
      rw [if_pos h0]
    refine ⟨?_, fun hv => absurd hv h0, fun hv => absurd hv h0⟩
    rw [hrun]
    constructor
    · intro _; exact h0
    · intro _; rfl

/-- C5: on a 50-byte act, `process_act_two` (and likewise
`process_act_one_with_keys`) fails with the unknown-handshake-version
error exactly when the first byte is nonzero (highest precedence);
otherwise with the invalid-public-key error exactly when bytes
`[1..34]` do not parse as a curve point; otherwise with the bad-MAC
error exactly when the trailing 16-byte tag does not verify; and each
of these errors recommends disconnecting the peer with no outgoing
message. -/
theorem c5_act_error_taxonomy (C : Crypto) (p : OutboundPeer)
    (st : BidirectionalNoiseState) (act : Bytes) (sI eR : Nat)
    (hlen : act.length = 50) :
    (process_act_two C p act sI = TResult.err unknownVersionErr ↔ act.getD 0 0 ≠ 0)
    ∧ (act.getD 0 0 = 0 →
        (process_act_two C p act sI = TResult.err invalidPubKeyErr
          ↔ C.parsePub ((act.drop 1).take 33) = none))
    ∧ (act.getD 0 0 = 0 → C.parsePub ((act.drop 1).take 33) ≠ none →
        (process_act_two C p act sI = TResult.err badMACErr
          ↔ C.decCheck
              ((hkdf_step C p.bi.ck
                (C.ecdh p.data.ie ((C.parsePub ((act.drop 1).take 33)).getD 0))).2)
              (nonce_for 0)
              (C.sha256 (p.bi.h
                ++ C.serPub ((C.parsePub ((act.drop 1).take 33)).getD 0)))
              ((act.drop 34).take ((act.drop 34).length - 16))
              ((act.drop 34).drop ((act.drop 34).length - 16)) = false))
    ∧ (process_act_one_with_keys C st act sI eR = TResult.err unknownVersionErr
        ↔ act.getD 0 0 ≠ 0)
    ∧ (act.getD 0 0 = 0 →
        (process_act_one_with_keys C st act sI eR = TResult.err invalidPubKeyErr
          ↔ C.parsePub ((act.drop 1).take 33) = none))
    ∧ (act.getD 0 0 = 0 → C.parsePub ((act.drop 1).take 33) ≠ none →
        (process_act_one_with_keys C st act sI eR = TResult.err badMACErr
          ↔ C.decCheck
              ((hkdf_step C st.ck
                (C.ecdh sI ((C.parsePub ((act.drop 1).take 33)).getD 0))).2)
              (nonce_for 0)
              (C.sha256 (st.h
                ++ C.serPub ((C.parsePub ((act.drop 1).take 33)).getD 0)))
              ((act.drop 34).take ((act.drop 34).length - 16))
              ((act.drop 34).drop ((act.drop 34).length - 16)) = false))
    ∧ unknownVersionErr.action = some (ErrorAction.disconnectPeer none)
    ∧ invalidPubKeyErr.action = some (ErrorAction.disconnectPeer none)
    ∧ badMACErr.action = some (ErrorAction.disconnectPeer none) := by
  obtain ⟨a1, a2, a3⟩ := inbound_noise_act_err_cases C p.bi act p.data.ie
  obtain ⟨b1, b2, b3⟩ := inbound_noise_act_err_cases C st act sI
  refine ⟨?_, ?_, ?_, ?_, ?_, ?_, rfl, rfl, rfl⟩
  · rw [process_act_two_err_iff hlen]; exact a1
  · intro h0; rw [process_act_two_err_iff hlen]; exact a2 h0
  · intro h0 hne; rw [process_act_two_err_iff hlen]; exact a3 h0 hne
  · rw [process_act_one_err_iff hlen]; exact b1
  · intro h0; rw [process_act_one_err_iff hlen]; exact b2 h0
  · intro h0 hne; rw [process_act_one_err_iff hlen]; exact b3 h0 hne

/-- Witness for C5 at a concrete 50-byte act. -/
theorem c5_act_error_taxonomy_witness :
    (0 :: List.replicate 49 2 : Bytes).length = 50
    ∧ ((process_act_two toyCrypto ⟨⟨3, 7⟩, ⟨[9], [8]⟩⟩ (0 :: List.replicate 49 2) 11
          = TResult.err unknownVersionErr ↔ (0 :: List.replicate 49 2 : Bytes).getD 0 0 ≠ 0)
      ∧ ((0 :: List.replicate 49 2 : Bytes).getD 0 0 = 0 →
          (process_act_two toyCrypto ⟨⟨3, 7⟩, ⟨[9], [8]⟩⟩ (0 :: List.replicate 49 2) 11
            = TResult.err invalidPubKeyErr
            ↔ toyCrypto.parsePub (((0 :: List.replicate 49 2 : Bytes).drop 1).take 33) = none))
      ∧ ((0 :: List.replicate 49 2 : Bytes).getD 0 0 = 0 →
          toyCrypto.parsePub (((0 :: List.replicate 49 2 : Bytes).drop 1).take 33) ≠ none →
          (process_act_two toyCrypto ⟨⟨3, 7⟩, ⟨[9], [8]⟩⟩ (0 :: List.replicate 49 2) 11
            = TResult.err badMACErr
            ↔ toyCrypto.decCheck
                ((hkdf_step toyCrypto [8]
                  (toyCrypto.ecdh 3
                    ((toyCrypto.parsePub
                      (((0 :: List.replicate 49 2 : Bytes).drop 1).take 33)).getD 0))).2)
                (nonce_for 0)
                (toyCrypto.sha256 ([9]
                  ++ toyCrypto.serPub
                    ((toyCrypto.parsePub
                      (((0 :: List.replicate 49 2 : Bytes).drop 1).take 33)).getD 0)))
                (((0 :: List.replicate 49 2 : Bytes).drop 34).take
                  (((0 :: List.replicate 49 2 : Bytes).drop 34).length - 16))
                (((0 :: List.replicate 49 2 : Bytes).drop 34).drop
                  (((0 :: List.replicate 49 2 : Bytes).drop 34).length - 16)) = false))
      ∧ (process_act_one_with_keys toyCrypto ⟨[5], [6]⟩ (0 :: List.replicate 49 2) 11 13
          = TResult.err unknownVersionErr ↔ (0 :: List.replicate 49 2 : Bytes).getD 0 0 ≠ 0)
      ∧ ((0 :: List.replicate 49 2 : Bytes).getD 0 0 = 0 →
          (process_act_one_with_keys toyCrypto ⟨[5], [6]⟩ (0 :: List.replicate 49 2) 11 13
            = TResult.err invalidPubKeyErr
            ↔ toyCrypto.parsePub (((0 :: List.replicate 49 2 : Bytes).drop 1).take 33) = none))
      ∧ ((0 :: List.replicate 49 2 : Bytes).getD 0 0 = 0 →
          toyCrypto.parsePub (((0 :: List.replicate 49 2 : Bytes).drop 1).take 33) ≠ none →
          (process_act_one_with_keys toyCrypto ⟨[5], [6]⟩ (0 :: List.replicate 49 2) 11 13
            = TResult.err badMACErr
            ↔ toyCrypto.decCheck
                ((hkdf_step toyCrypto [6]
                  (toyCrypto.ecdh 11
                    ((toyCrypto.parsePub
                      (((0 :: List.replicate 49 2 : Bytes).drop 1).take 33)).getD 0))).2)
                (nonce_for 0)
                (toyCrypto.sha256 ([5]
                  ++ toyCrypto.serPub
                    ((toyCrypto.parsePub
                      (((0 :: List.replicate 49 2 : Bytes).drop 1).take 33)).getD 0)))
                (((0 :: List.replicate 49 2 : Bytes).drop 34).take
                  (((0 :: List.replicate 49 2 : Bytes).drop 34).length - 16))
                (((0 :: List.replicate 49 2 : Bytes).drop 34).drop
                  (((0 :: List.replicate 49 2 : Bytes).drop 34).length - 16)) = false))
      ∧ unknownVersionErr.action = some (ErrorAction.disconnectPeer none)
      ∧ invalidPubKeyErr.action = some (ErrorAction.disconnectPeer none)
      ∧ badMACErr.action = some (ErrorAction.disconnectPeer none)) :=
  ⟨by decide,
    c5_act_error_taxonomy toyCrypto ⟨⟨3, 7⟩, ⟨[9], [8]⟩⟩ ⟨[5], [6]⟩
      (0 :: List.replicate 49 2) 11 13 (by decide)⟩

theorem outbound_act_length {C : Crypto} (hC : CryptoOk C)
    (st : BidirectionalNoiseState) (e P : Nat) :
    (outbound_noise_act C st e P).1.length = 50 := by
  simp only [outbound_noise_act]
  simp [hC.serPub_length, encrypt_with_ad_length hC]

/-- Relaying an outbound act produced toward `pubOf s` into the
inbound act processor keyed by `s` succeeds, recovers the sender's
ephemeral pubkey, and yields the same temporary key and bidirectional
state that the sender computed. -/
theorem inbound_of_outbound {C : Crypto} (hC : CryptoOk C)
    (st : BidirectionalNoiseState) (e s : Nat) :
    inbound_noise_act C st (outbound_noise_act C st e (C.pubOf s)).1 s =
      Except.ok (C.pubOf e, (outbound_noise_act C st e (C.pubOf s)).2.1,
        (outbound_noise_act C st e (C.pubOf s)).2.2) := by
  simp only [outbound_noise_act]
  have hparse : C.parsePub
      (((0 :: (C.serPub (C.pubOf e)
        ++ encrypt_with_ad C 0 (hkdf_step C st.ck (C.ecdh e (C.pubOf s))).2
            (C.sha256 (st.h ++ C.serPub (C.pubOf e))) []) : Bytes).drop 1).take 33) =
      some (C.pubOf e) := by
    have ht : ((0 :: (C.serPub (C.pubOf e)
        ++ encrypt_with_ad C 0 (hkdf_step C st.ck (C.ecdh e (C.pubOf s))).2
            (C.sha256 (st.h ++ C.serPub (C.pubOf e))) []) : Bytes).drop 1).take 33 =
        C.serPub (C.pubOf e) := List.take_left' (hC.serPub_length _)
    rw [ht, hC.parse_serPub]
  rw [inbound_noise_act_parse_some hparse rfl]
  rw [hC.ecdh_symm s e]
  have hdrop : ((0 :: (C.serPub (C.pubOf e)
      ++ encrypt_with_ad C 0 (hkdf_step C st.ck (C.ecdh e (C.pubOf s))).2
          (C.sha256 (st.h ++ C.serPub (C.pubOf e))) []) : Bytes).drop 34) =
      encrypt_with_ad C 0 (hkdf_step C st.ck (C.ecdh e (C.pubOf s))).2
        (C.sha256 (st.h ++ C.serPub (C.pubOf e))) [] :=
    List.drop_left' (hC.serPub_length _)
  rw [hdrop, decrypt_encrypt hC]

theorem process_act_one_run {C : Crypto} (hC : CryptoOk C)
    (st : BidirectionalNoiseState) (e s eR' : Nat) :
    process_act_one_with_keys C st (outbound_noise_act C st e (C.pubOf s)).1 s eR' =
      TResult.ok
        ({ ie := C.pubOf e, re := eR',
           temp_k2 := (outbound_noise_act C (outbound_noise_act C st e (C.pubOf s)).2.2 eR'
              (C.pubOf e)).2.1,
           bi := (outbound_noise_act C (outbound_noise_act C st e (C.pubOf s)).2.2 eR'
              (C.pubOf e)).2.2 },
         (outbound_noise_act C (outbound_noise_act C st e (C.pubOf s)).2.2 eR'
            (C.pubOf e)).1) := by
  unfold process_act_one_with_keys
  rw [if_neg (by simp [outbound_act_length hC]), inbound_of_outbound hC]

theorem process_act_two_run {C : Crypto} (hC : CryptoOk C)
    (p : OutboundPeer) (e' s' : Nat) :
    process_act_two C p (outbound_noise_act C p.bi e' (C.pubOf p.data.ie)).1 s' =
      TResult.ok
        ({ sk := (hkdf_extract_expand C
              (hkdf_step C (outbound_noise_act C p.bi e' (C.pubOf p.data.ie)).2.2.ck
                (C.ecdh s' (C.pubOf e'))).1 []).1,
           sn := 0,
           sck := (hkdf_step C (outbound_noise_act C p.bi e' (C.pubOf p.data.ie)).2.2.ck
              (C.ecdh s' (C.pubOf e'))).1,
           rk := (hkdf_extract_expand C
              (hkdf_step C (outbound_noise_act C p.bi e' (C.pubOf p.data.ie)).2.2.ck
                (C.ecdh s' (C.pubOf e'))).1 []).2,
           rn := 0,
           rck := (hkdf_step C (outbound_noise_act C p.bi e' (C.pubOf p.data.ie)).2.2.ck
              (C.ecdh s' (C.pubOf e'))).1 },
         0 :: (encrypt_with_ad C 1 (outbound_noise_act C p.bi e' (C.pubOf p.data.ie)).2.1
              (outbound_noise_act C p.bi e' (C.pubOf p.data.ie)).2.2.h
              (C.serPub (C.pubOf s'))
            ++ encrypt_with_ad C 0
                (hkdf_step C (outbound_noise_act C p.bi e' (C.pubOf p.data.ie)).2.2.ck
                  (C.ecdh s' (C.pubOf e'))).2
                (C.sha256 ((outbound_noise_act C p.bi e' (C.pubOf p.data.ie)).2.2.h
                  ++ encrypt_with_ad C 1
                      (outbound_noise_act C p.bi e' (C.pubOf p.data.ie)).2.1
                      (outbound_noise_act C p.bi e' (C.pubOf p.data.ie)).2.2.h
                      (C.serPub (C.pubOf s')))) []),
         p.data.their_node_id) := by
  unfold process_act_two
  rw [if_neg (by simp [outbound_act_length hC]), inbound_of_outbound hC]

theorem process_act_three_run {C : Crypto} (hC : CryptoOk C)
    (ip : InboundPostActTwoState) (s' : Nat) :
    process_act_three C ip
      (0 :: (encrypt_with_ad C 1 ip.temp_k2 ip.bi.h (C.serPub (C.pubOf s'))
        ++ encrypt_with_ad C 0 (hkdf_step C ip.bi.ck (C.ecdh ip.re (C.pubOf s'))).2
            (C.sha256 (ip.bi.h ++ encrypt_with_ad C 1 ip.temp_k2 ip.bi.h
              (C.serPub (C.pubOf s')))) [])) =
      TResult.ok
        ({ sk := (hkdf_extract_expand C
              (hkdf_step C ip.bi.ck (C.ecdh ip.re (C.pubOf s'))).1 []).2,
           sn := 0,
           sck := (hkdf_step C ip.bi.ck (C.ecdh ip.re (C.pubOf s'))).1,
           rk := (hkdf_extract_expand C
              (hkdf_step C ip.bi.ck (C.ecdh ip.re (C.pubOf s'))).1 []).1,
           rn := 0,
           rck := (hkdf_step C ip.bi.ck (C.ecdh ip.re (C.pubOf s'))).1 },
         C.pubOf s') := by
  have hc1len : (encrypt_with_ad C 1 ip.temp_k2 ip.bi.h (C.serPub (C.pubOf s'))).length
      = 49 := by
    rw [encrypt_with_ad_length hC, hC.serPub_length]
  have hlen66 : (0 :: (encrypt_with_ad C 1 ip.temp_k2 ip.bi.h (C.serPub (C.pubOf s'))
      ++ encrypt_with_ad C 0 (hkdf_step C ip.bi.ck (C.ecdh ip.re (C.pubOf s'))).2
          (C.sha256 (ip.bi.h ++ encrypt_with_ad C 1 ip.temp_k2 ip.bi.h
            (C.serPub (C.pubOf s')))) []) : Bytes).length = 66 := by
    simp [hc1len, encrypt_with_ad_length hC]
  have htake : (((0 :: (encrypt_with_ad C 1 ip.temp_k2 ip.bi.h (C.serPub (C.pubOf s'))
      ++ encrypt_with_ad C 0 (hkdf_step C ip.bi.ck (C.ecdh ip.re (C.pubOf s'))).2
          (C.sha256 (ip.bi.h ++ encrypt_with_ad C 1 ip.temp_k2 ip.bi.h
            (C.serPub (C.pubOf s')))) []) : Bytes).drop 1).take 49) =
      encrypt_with_ad C 1 ip.temp_k2 ip.bi.h (C.serPub (C.pubOf s')) :=
    List.take_left' hc1len
  have hdrop : ((0 :: (encrypt_with_ad C 1 ip.temp_k2 ip.bi.h (C.serPub (C.pubOf s'))
      ++ encrypt_with_ad C 0 (hkdf_step C ip.bi.ck (C.ecdh ip.re (C.pubOf s'))).2
          (C.sha256 (ip.bi.h ++ encrypt_with_ad C 1 ip.temp_k2 ip.bi.h
            (C.serPub (C.pubOf s')))) []) : Bytes).drop 50) =
      encrypt_with_ad C 0 (hkdf_step C ip.bi.ck (C.ecdh ip.re (C.pubOf s'))).2
        (C.sha256 (ip.bi.h ++ encrypt_with_ad C 1 ip.temp_k2 ip.bi.h
          (C.serPub (C.pubOf s')))) [] :=
    List.drop_left' hc1len
  unfold process_act_three
  rw [if_neg (by simp [hlen66]), if_neg (not_not_intro List.getD_cons_zero)]
  simp only [htake, hdrop, decrypt_encrypt hC, hC.parse_serPub]

/-- C1: when an initiator built with `new_outbound(pubOf sR, eI)` and a
responder built with `new_inbound(sR)` run the three-act handshake
with the acts relayed unmodified and all steps succeed, the resulting
`Finished` states mirror each other: the initiator's send key is the
responder's receive key and vice versa, all four chaining keys are
equal, and all four nonce counters are zero. -/
theorem c1_handshake_final_state (C : Crypto) (sR eI eR sI : Nat)
    (inb1 : InboundPostActTwoState) (act2 : Bytes)
    (finI : Finished) (act3 : Bytes) (pk : Nat) (finR : Finished) (pk2 : Nat)
    (hC : CryptoOk C)
    (h1 : process_act_one_with_keys C (new_inbound C sR)
        (get_act_one C (new_outbound C (C.pubOf sR) eI)).2 sR eR
        = TResult.ok (inb1, act2))
    (h2 : process_act_two C (get_act_one C (new_outbound C (C.pubOf sR) eI)).1 act2 sI
        = TResult.ok (finI, act3, pk))
    (h3 : process_act_three C inb1 act3 = TResult.ok (finR, pk2)) :
    finI.sk = finR.rk ∧ finI.rk = finR.sk
    ∧ finI.sck = finI.rck ∧ finI.rck = finR.sck ∧ finR.sck = finR.rck
    ∧ finI.sn = 0 ∧ finI.rn = 0 ∧ finR.sn = 0 ∧ finR.rn = 0 := by
  have e1 : (get_act_one C (new_outbound C (C.pubOf sR) eI)).2 =
      (outbound_noise_act C (new_inbound C sR) eI (C.pubOf sR)).1 := rfl
  rw [e1, process_act_one_run hC (new_inbound C sR) eI sR eR] at h1
  simp only [TResult.ok.injEq, Prod.mk.injEq] at h1
  obtain ⟨hinb1, hact2⟩ := h1
  have e2 : (get_act_one C (new_outbound C (C.pubOf sR) eI)).1 =
      ({ data := { ie := eI, their_node_id := C.pubOf sR },
         bi := (outbound_noise_act C (new_inbound C sR) eI (C.pubOf sR)).2.2 } :
        OutboundPeer) := rfl
  rw [e2, ← hact2] at h2
  have hrun2 := process_act_two_run hC
    ({ data := { ie := eI, their_node_id := C.pubOf sR },
       bi := (outbound_noise_act C (new_inbound C sR) eI (C.pubOf sR)).2.2 } :
      OutboundPeer) eR sI
  simp only [] at hrun2
  rw [hrun2] at h2
  simp only [TResult.ok.injEq, Prod.mk.injEq] at h2
  obtain ⟨hfinI, hact3, hpk⟩ := h2
  rw [← hinb1, ← hact3] at h3
  have hrun3 := process_act_three_run hC
    ({ ie := C.pubOf eI, re := eR,
       temp_k2 := (outbound_noise_act C
          (outbound_noise_act C (new_inbound C sR) eI (C.pubOf sR)).2.2 eR
          (C.pubOf eI)).2.1,
       bi := (outbound_noise_act C
          (outbound_noise_act C (new_inbound C sR) eI (C.pubOf sR)).2.2 eR
          (C.pubOf eI)).2.2 } : InboundPostActTwoState) sI
  simp only [] at hrun3
  rw [hC.ecdh_symm eR sI] at hrun3
  rw [hrun3] at h3
  simp only [TResult.ok.injEq, Prod.mk.injEq] at h3
  obtain ⟨hfinR, hpk2⟩ := h3
  rw [← hfinI, ← hfinR]
  exact ⟨rfl, rfl, rfl, rfl, rfl, rfl, rfl, rfl, rfl⟩

/-- The concrete toy handshake used to witness C1: responder static
secret 2, initiator ephemeral 3, responder ephemeral 5, initiator
static secret 7. -/
def c1W_run1 : TResult (InboundPostActTwoState × Bytes) :=
  process_act_one_with_keys toyCrypto (new_inbound toyCrypto 2)
    (get_act_one toyCrypto (new_outbound toyCrypto (toyCrypto.pubOf 2) 3)).2 2 5

def c1W_inb1 : InboundPostActTwoState := (c1W_run1.valD (⟨0, 0, [], ⟨[], []⟩⟩, [])).1

def c1W_act2 : Bytes := (c1W_run1.valD (⟨0, 0, [], ⟨[], []⟩⟩, [])).2

def c1W_run2 : TResult (Finished × Bytes × Nat) :=
  process_act_two toyCrypto
    (get_act_one toyCrypto (new_outbound toyCrypto (toyCrypto.pubOf 2) 3)).1 c1W_act2 7

def c1W_finI : Finished := (c1W_run2.valD (⟨[], 0, [], [], 0, []⟩, [], 0)).1

def c1W_act3 : Bytes := (c1W_run2.valD (⟨[], 0, [], [], 0, []⟩, [], 0)).2.1

def c1W_pk : Nat := (c1W_run2.valD (⟨[], 0, [], [], 0, []⟩, [], 0)).2.2

def c1W_run3 : TResult (Finished × Nat) := process_act_three toyCrypto c1W_inb1 c1W_act3

def c1W_finR : Finished := (c1W_run3.valD (⟨[], 0, [], [], 0, []⟩, 0)).1

def c1W_pk2 : Nat := (c1W_run3.valD (⟨[], 0, [], [], 0, []⟩, 0)).2

/-- Witness for C1 on the concrete toy handshake. -/
theorem c1_handshake_final_state_witness :
    (process_act_one_with_keys toyCrypto (new_inbound toyCrypto 2)
        (get_act_one toyCrypto (new_outbound toyCrypto (toyCrypto.pubOf 2) 3)).2 2 5
      = TResult.ok (c1W_inb1, c1W_act2))
    ∧ (process_act_two toyCrypto
        (get_act_one toyCrypto (new_outbound toyCrypto (toyCrypto.pubOf 2) 3)).1 c1W_act2 7
      = TResult.ok (c1W_finI, c1W_act3, c1W_pk))
    ∧ (process_act_three toyCrypto c1W_inb1 c1W_act3 = TResult.ok (c1W_finR, c1W_pk2))
    ∧ (c1W_finI.sk = c1W_finR.rk ∧ c1W_finI.rk = c1W_finR.sk
      ∧ c1W_finI.sck = c1W_finI.rck ∧ c1W_finI.rck = c1W_finR.sck
      ∧ c1W_finR.sck = c1W_finR.rck
      ∧ c1W_finI.sn = 0 ∧ c1W_finI.rn = 0 ∧ c1W_finR.sn = 0 ∧ c1W_finR.rn = 0) :=
  ⟨by decide, by decide, by decide,
    c1_handshake_final_state toyCrypto 2 3 5 7 c1W_inb1 c1W_act2 c1W_finI c1W_act3 c1W_pk
      c1W_finR c1W_pk2 toyCryptoOk (by decide) (by decide) (by decide)⟩

end PCE
